import Mathlib

/-!
Shallow embedding of the master/slave connection-routing layer
(`internal/database/database.go`, `internal/database/manager.go`) and the
health-check orchestration subsystem (`internal/health/health.go`) of the
`awesome-be` repository, together with theorems settling the specification
claims about them.

External I/O (driver connections, `SELECT 1` probes, pool closes) is
abstracted by an `Env` of outcome oracles; machine integers are `Nat` with
an explicit `% 2^32` where the Go code uses `atomic.Uint32`.
-/

namespace AwesomeBE

/-- `config.DBInstanceConfig`: one database endpoint. -/
structure DBInstanceConfig where
  host : String
  port : Nat
  username : String
  password : String
  database : String
  charset : String
  parseTime : Bool
  loc : String
  sslMode : String
deriving DecidableEq, Repr

/-- `config.DatabaseConfig` (the fields consumed by the routing layer). -/
structure DatabaseConfig where
  name : String
  dbType : String
  maxIdleConns : Nat
  maxOpenConns : Nat
  connMaxLifetime : Nat
  connMaxIdleTime : Nat
  master : DBInstanceConfig
  slaves : List DBInstanceConfig
deriving DecidableEq, Repr

/-- `config.HealthConfig`. -/
structure HealthConfig where
  timeout : Nat
  detailed : Bool
deriving DecidableEq, Repr

/-- A `*gorm.DB` pool handle as returned by `gorm.Open`.  The `id` field
models Go pointer identity: every `gorm.Open` call yields a fresh object. -/
structure GormDB where
  id : Nat
  dbType : String
  endpoint : DBInstanceConfig
deriving DecidableEq, Repr

/-- A `context.Context` value (opaque to the routing layer). -/
structure Ctx where
  tag : Nat
deriving DecidableEq, Repr

/-- The session returned by `db.WithContext(ctx)`: a pool bound to a context. -/
structure Handle where
  pool : GormDB
  ctx : Ctx
deriving DecidableEq, Repr

/-- Outcomes of the external I/O the code performs, abstracted as oracles:
whether `gorm.Open` succeeds for an endpoint, whether `db.DB()` succeeds,
whether `PingContext` / `Exec "SELECT 1"` succeed on a pool, and the error
(if any) produced by `sql.DB.Close`. -/
structure Env where
  connectOk : DBInstanceConfig → Bool
  sqlDBOk : GormDB → Bool
  pingOk : GormDB → Bool
  execOk : GormDB → Bool
  closeErr : GormDB → Option String

/-- `database.connect`: builds a dialector for the configured driver family
and opens a connection.  An unsupported `type` is an error; otherwise the
open succeeds iff the environment says the endpoint is reachable.  `freshId`
models the fresh pool object allocated by a successful `gorm.Open`. -/
def connect (cfg : DatabaseConfig) (inst : DBInstanceConfig) (env : Env)
    (freshId : Nat) : Except String GormDB :=
  if cfg.dbType = "mysql" ∨ cfg.dbType = "postgres" ∨ cfg.dbType = "sqlite" then
    if env.connectOk inst then .ok ⟨freshId, cfg.dbType, inst⟩
    else .error "gorm open failed"
  else .error ("unsupported database type: " ++ cfg.dbType)

/-- `database.Database`: master pool, active slave pools, and the
`atomic.Uint32` round-robin index (kept in `[0, 2^32)`). -/
structure Database where
  name : String
  config : DatabaseConfig
  master : GormDB
  slaves : List GormDB
  slaveIndex : Nat
deriving DecidableEq, Repr

/-- `Database.Master`: always the master pool, bound to the caller context. -/
def Database.Master (d : Database) (ctx : Ctx) : Handle :=
  ⟨d.master, ctx⟩

/-- `Database.Slave`: with no slaves, fall back to the master; otherwise
`index := slaveIndex.Add(1) % uint32(len(slaves))` (the counter wraps at
`2^32`).  Returns the handle and the instance with its updated counter. -/
def Database.Slave (d : Database) (ctx : Ctx) : Handle × Database :=
  if h : d.slaves.length = 0 then
    (⟨d.master, ctx⟩, d)
  else
    let newIdx := (d.slaveIndex + 1) % 4294967296
    let i := newIdx % d.slaves.length
    (⟨d.slaves.get ⟨i, Nat.mod_lt _ (Nat.pos_of_ne_zero h)⟩, ctx⟩,
      { d with slaveIndex := newIdx })

/-- `Database.Close`: closes the master pool (when `db.DB()` succeeds) and
every active slave pool, discarding each `Close` error; the function itself
returns `nil` unconditionally.  The second component records the discarded
per-pool close errors. -/
def Database.Close (d : Database) (env : Env) : Option String × List (Option String) :=
  let masterErrs := if env.sqlDBOk d.master then [env.closeErr d.master] else []
  let slaveErrs := (d.slaves.filter (fun s => env.sqlDBOk s)).map env.closeErr
  (none, masterErrs ++ slaveErrs)

/-! ## Health-check orchestration (`internal/health/health.go`) -/

/-- The outcome of invoking one checker probe (`Ping` or `Check`):
success, a Go `error`, or an unrecovered `panic`. -/
inductive Outcome
  | ok
  | err (msg : String)
  | panicked
deriving DecidableEq, Repr

/-- `Outcome.isErr o` iff the probe returned a non-nil Go `error`. -/
def Outcome.isErr : Outcome → Bool
  | .err _ => true
  | _ => false

/-- A registered `health.HealthChecker`, abstracted by its name and the
outcome each of its two probe methods produces under the shared context. -/
structure Checker where
  name : String
  ping : Outcome
  check : Outcome
deriving DecidableEq, Repr

/-- `health.CheckResult`. -/
structure CheckResult where
  status : String
  message : String
deriving DecidableEq, Repr

/-- `health.HealthStatus`; the `checks` map is an association list with
unique keys (one slot per checker name). -/
structure HealthStatus where
  status : String
  timestamp : String
  checks : List (String × CheckResult)
deriving DecidableEq, Repr

/-- Go map insertion on an association list: overwrite the existing entry
for the key, or append a fresh one. -/
def mapInsert {α : Type} : List (String × α) → String → α → List (String × α)
  | [], k, v => [(k, v)]
  | (k', v') :: rest, k, v =>
      if k' = k then (k, v) :: rest else (k', v') :: mapInsert rest k v

/-- Go map lookup on an association list. -/
def mapLookup {α : Type} : List (String × α) → String → Option α
  | [], _ => none
  | (k', v) :: rest, k => if k' = k then some v else mapLookup rest k

/-- `health.Manager`: the checker registry plus its configuration. -/
structure HManager where
  checkers : List (String × Checker)
  config : HealthConfig

/-- `health.Manager.Register`: insert/overwrite under the key
`checker.Name()`; always returns `nil` (modelled as `none`). -/
def HManager.Register (m : HManager) (c : Checker) : HManager × Option String :=
  ({ m with checkers := mapInsert m.checkers c.name c }, none)

/-- The per-task result recording: a non-nil error yields
`{status: "error", message: err.Error()}`, success yields
`{status: "ok", message: ""}`.  (A panicking task never records a result:
the fan-out as a whole aborts, see `runChecks`.) -/
def mkResult : Outcome → CheckResult
  | .ok => ⟨"ok", ""⟩
  | .err m => ⟨"error", m⟩
  | .panicked => ⟨"error", ""⟩

/-- The shared fan-out/fan-in shape of `Manager.Ping` and `Manager.Check`:
one goroutine per registered checker runs `probe`, records its result under
its name, and sets the overall status to `"error"` on failure.  The spawned
goroutines contain no `recover`, so a panic in any one of them crashes the
whole process — no `HealthStatus` is ever returned (modelled as `none`). -/
def runChecks (entries : List (String × Checker)) (probe : Checker → Outcome)
    (now : String) : Option HealthStatus :=
  if entries.any (fun e => probe e.2 == .panicked) then
    none
  else
    some { status := if entries.any (fun e => (probe e.2).isErr) then "error" else "ok"
           timestamp := now
           checks := entries.map (fun e => (e.1, mkResult (probe e.2))) }

/-- `health.Manager.Ping`: liveness fan-out over `checker.Ping`.  With no
registered checkers it returns `ok` with an empty checks map immediately.
`now` stands for `time.Now().Format(time.RFC3339)`. -/
def HManager.Ping (m : HManager) (now : String) : Option HealthStatus :=
  if m.checkers.length = 0 then some ⟨"ok", now, []⟩
  else runChecks m.checkers (fun c => c.ping) now

/-- `health.Manager.Check`: readiness fan-out over `checker.Check`, same
shape as `Ping`. -/
def HManager.Check (m : HManager) (now : String) : Option HealthStatus :=
  if m.checkers.length = 0 then some ⟨"ok", now, []⟩
  else runChecks m.checkers (fun c => c.check) now

/-! ## Database construction and the registry
(`database.New`, `database.NewManager`) -/

/-- `DatabaseHealthChecker.Ping`: `db.DB()` then `PingContext`, under the
environment oracles. -/
def dbPingOutcome (db : GormDB) (env : Env) : Outcome :=
  if env.sqlDBOk db then
    if env.pingOk db then .ok else .err "database ping failed"
  else .err "failed to get sql.DB"

/-- `DatabaseHealthChecker.Check`: `db.DB()`, `PingContext`, then
`Exec "SELECT 1"`. -/
def dbCheckOutcome (db : GormDB) (env : Env) : Outcome :=
  if env.sqlDBOk db then
    if env.pingOk db then
      if env.execOk db then .ok else .err "database query failed"
    else .err "database ping failed"
  else .err "failed to get sql.DB"

/-- The `DatabaseHealthChecker{name, db: master}` value that `database.New`
registers, as a `Checker` under the ambient environment. -/
def dbHealthChecker (name : String) (db : GormDB) (env : Env) : Checker :=
  ⟨name, dbPingOutcome db env, dbCheckOutcome db env⟩

/-- The slave-connection loop of `database.New`: each configured slave is
attempted independently; a failure is logged and the slave omitted, the
successes are kept in order.  Slave `i` receives fresh pool id `i + 1`
(id `0` is the master's). -/
def connectSlaves (cfg : DatabaseConfig) (env : Env) : List GormDB :=
  cfg.slaves.enum.filterMap (fun p => (connect cfg p.2 env (p.1 + 1)).toOption)

/-- `database.New`: connect the master (fatal on failure), fetch its
`sql.DB` (fatal on failure), apply pool bounds, connect slaves (failures
non-fatal), verify the master with `SELECT 1` (fatal on failure), then
register a health checker when a manager was supplied.  Returns the
instance and the (possibly updated) health manager. -/
def New (cfg : DatabaseConfig) (env : Env) (healthMgr : Option HManager) :
    Except String Database × Option HManager :=
  match connect cfg cfg.master env 0 with
  | .error e => (.error ("failed to connect to master database: " ++ e), healthMgr)
  | .ok master =>
    if env.sqlDBOk master then
      let slaves := connectSlaves cfg env
      let db : Database := ⟨cfg.name, cfg, master, slaves, 0⟩
      if env.execOk master then
        (.ok db,
          healthMgr.map (fun m => (m.Register (dbHealthChecker cfg.name master env)).1))
      else (.error "failed to verify database connection", healthMgr)
    else (.error "failed to get sql.DB", healthMgr)

/-- `database.Manager`: the name-keyed registry of database instances. -/
structure Manager where
  databases : List (String × Database)

/-- The construction loop of `database.NewManager`: build each configured
instance in list order; the first failure aborts with an error naming the
offending instance, leaving the registry unreturned. -/
def newManagerLoop (env : Env) :
    List DatabaseConfig → Option HManager → List (String × Database) →
    Except String Manager × Option HManager
  | [], hm, acc => (.ok ⟨acc⟩, hm)
  | cfg :: rest, hm, acc =>
    match New cfg env hm with
    | (.error e, hm2) =>
        (.error ("failed to initialize database " ++ cfg.name ++ ": " ++ e), hm2)
    | (.ok db, hm2) => newManagerLoop env rest hm2 (mapInsert acc cfg.name db)

/-- `database.NewManager`. -/
def NewManager (configs : List DatabaseConfig) (env : Env)
    (hm : Option HManager) : Except String Manager × Option HManager :=
  newManagerLoop env configs hm []

/-- `Manager.Get`: name lookup under a read lock; `nil` when absent. -/
def Manager.Get (m : Manager) (name : String) : Option Database :=
  mapLookup m.databases name

/-- `Manager.Close`: closes every registered instance; `db.Close` never
reports an error, so the warning branch is dead and the function returns
`nil`.  The second component collects the discarded per-pool close errors. -/
def Manager.Close (m : Manager) (env : Env) : Option String × List (Option String) :=
  (none, (m.databases.map (fun p => (p.2.Close env).2)).flatten)

/-! ## Shared sample values for concrete witnesses -/

/-- A sample endpoint configuration distinguished by its host. -/
def sampleEndpoint (h : String) : DBInstanceConfig :=
  ⟨h, 3306, "user", "pass", "app", "utf8mb4", true, "Local", "disable"⟩

/-- A sample pool handle. -/
def samplePool (i : Nat) (h : String) : GormDB :=
  ⟨i, "mysql", sampleEndpoint h⟩

/-- A sample database configuration over the given master host and
slave hosts. -/
def sampleConfig (name : String) (m : String) (ss : List String) : DatabaseConfig :=
  ⟨name, "mysql", 10, 100, 3600, 600, sampleEndpoint m, ss.map sampleEndpoint⟩

/-- A sample environment: every endpoint whose host is not `"bad"`
connects; all pool-level probes succeed; closing the pool with id 99
reports an error (which the code discards). -/
def sampleEnv : Env :=
  { connectOk := fun i => i.host != "bad"
    sqlDBOk := fun _ => true
    pingOk := fun _ => true
    execOk := fun _ => true
    closeErr := fun g => if g.id = 99 then some "close failed" else none }

/-! ## C2: empty slave list falls back to the master pool -/

/-- C2: for every `Database` whose active slave list is empty and every
context, `Slave(ctx)` returns a handle backed by the identical underlying
pool as `Master(ctx)` (the master pool), and leaves the instance
unchanged: the read path degrades to the master rather than failing. -/
theorem slave_empty_falls_back_to_master (d : Database) (ctx : Ctx)
    (h : d.slaves = []) :
    (d.Slave ctx).1 = d.Master ctx ∧ (d.Slave ctx).1.pool = d.master ∧
      (d.Slave ctx).2 = d := by
  refine ⟨?_, ?_, ?_⟩ <;> simp [Database.Slave, Database.Master, h]

/-- Witness for C2 at a concrete instance with no slaves. -/
theorem slave_empty_falls_back_to_master_witness :
    (Database.Slave ⟨"main", sampleConfig "main" "m" [], samplePool 0 "m", [], 0⟩ ⟨7⟩).1 =
      Database.Master ⟨"main", sampleConfig "main" "m" [], samplePool 0 "m", [], 0⟩ ⟨7⟩ ∧
    (Database.Slave ⟨"main", sampleConfig "main" "m" [], samplePool 0 "m", [], 0⟩ ⟨7⟩).1.pool =
      samplePool 0 "m" ∧
    (Database.Slave ⟨"main", sampleConfig "main" "m" [], samplePool 0 "m", [], 0⟩ ⟨7⟩).2 =
      ⟨"main", sampleConfig "main" "m" [], samplePool 0 "m", [], 0⟩ :=
  slave_empty_falls_back_to_master
    ⟨"main", sampleConfig "main" "m" [], samplePool 0 "m", [], 0⟩ ⟨7⟩ rfl

/-! ## C8: `Close` never reports a failure -/

/-- C8: `Database.Close` and `Manager.Close` return `nil` for every
instance state and every environment — in particular also when the
underlying pool closes fail (`closeErr`) or the pool handle cannot be
obtained (`sqlDBOk` false); all such failures are discarded, so a caller
can never observe a close failure through the return value. -/
theorem close_always_returns_nil (d : Database) (m : Manager) (env : Env) :
    (d.Close env).1 = none ∧ (m.Close env).1 = none :=
  ⟨rfl, rfl⟩

/-! ## Association-map lemmas (Go map semantics) -/

theorem mapLookup_mapInsert_self {α : Type} (l : List (String × α)) (k : String)
    (v : α) : mapLookup (mapInsert l k v) k = some v := by
  induction l with
  | nil => simp [mapInsert, mapLookup]
  | cons hd tl ih =>
    obtain ⟨k2, v2⟩ := hd
    by_cases hk : k2 = k
    · simp [mapInsert, hk, mapLookup]
    · simp [mapInsert, hk, mapLookup, ih]

theorem mapLookup_mapInsert_ne {α : Type} (l : List (String × α)) (k k2 : String)
    (v : α) (h : k2 ≠ k) :
    mapLookup (mapInsert l k v) k2 = mapLookup l k2 := by
  induction l with
  | nil => simp [mapInsert, mapLookup, Ne.symm h]
  | cons hd tl ih =>
    obtain ⟨k3, v3⟩ := hd
    by_cases hk : k3 = k
    · subst hk
      simp [mapInsert, mapLookup, Ne.symm h]
    · by_cases hk2 : k3 = k2 <;> simp [mapInsert, hk, hk2, mapLookup, h, ih]

theorem countP_eq_zero_of_key_not_mem {α : Type} (l : List (String × α))
    (k : String) (h : k ∉ l.map Prod.fst) :
    l.countP (fun e => e.1 == k) = 0 := by
  rw [List.countP_eq_zero]
  intro a ha hk
  exact h (List.mem_map.mpr ⟨a, ha, by simpa using hk⟩)

theorem mem_keys_mapInsert {α : Type} (l : List (String × α)) (k : String)
    (v : α) (x : String) :
    x ∈ (mapInsert l k v).map Prod.fst ↔ x = k ∨ x ∈ l.map Prod.fst := by
  induction l with
  | nil => simp [mapInsert]
  | cons hd tl ih =>
    obtain ⟨k2, v2⟩ := hd
    by_cases hk : k2 = k
    · subst hk
      simp [mapInsert]
    · simp only [mapInsert, if_neg hk, List.map_cons, List.mem_cons, ih]
      tauto

theorem keys_nodup_mapInsert {α : Type} (l : List (String × α)) (k : String)
    (v : α) (h : (l.map Prod.fst).Nodup) :
    ((mapInsert l k v).map Prod.fst).Nodup := by
  induction l with
  | nil => simp [mapInsert]
  | cons hd tl ih =>
    obtain ⟨k2, v2⟩ := hd
    simp only [List.map_cons, List.nodup_cons] at h
    by_cases hk : k2 = k
    · subst hk
      simpa [mapInsert] using h
    · simp only [mapInsert, if_neg hk, List.map_cons, List.nodup_cons]
      refine ⟨?_, ih h.2⟩
      rw [mem_keys_mapInsert]
      rintro (rfl | hmem)
      · exact hk rfl
      · exact h.1 hmem

theorem countP_key_mapInsert {α : Type} (l : List (String × α)) (k : String)
    (v : α) (h : (l.map Prod.fst).Nodup) :
    (mapInsert l k v).countP (fun e => e.1 == k) = 1 := by
  induction l with
  | nil => simp [mapInsert]
  | cons hd tl ih =>
    obtain ⟨k2, v2⟩ := hd
    simp only [List.map_cons, List.nodup_cons] at h
    by_cases hk : k2 = k
    · subst hk
      simp [mapInsert, List.countP_cons, countP_eq_zero_of_key_not_mem tl k2 h.1]
    · simp [mapInsert, hk, List.countP_cons, ih h.2]

/-! ## C6: later registration under the same name overwrites -/

/-- C6: for every health manager (whose registry, being a Go map, has
pairwise-distinct keys) and any two checkers `A`, `B` with the same name,
`Register(A)` then `Register(B)` leaves exactly one entry keyed by that
name, that entry is `B`, and neither `Register` call returns an error. -/
theorem register_same_name_overwrites (m : HManager) (A B : Checker)
    (hname : B.name = A.name) (hwf : (m.checkers.map Prod.fst).Nodup) :
    mapLookup (((m.Register A).1.Register B).1).checkers A.name = some B ∧
    ((((m.Register A).1.Register B).1).checkers.countP
        (fun e => e.1 == A.name)) = 1 ∧
    (m.Register A).2 = none ∧ ((m.Register A).1.Register B).2 = none := by
  refine ⟨?_, ?_, rfl, rfl⟩
  · simp only [HManager.Register, hname]
    exact mapLookup_mapInsert_self _ _ _
  · simp only [HManager.Register, hname]
    exact countP_key_mapInsert _ _ _ (keys_nodup_mapInsert _ _ _ hwf)

/-- Witness for C6: registering `A` then `B` under the name `"db"` on an
empty manager leaves the single entry `B` and no error. -/
theorem register_same_name_overwrites_witness :
    mapLookup (((HManager.mk [] ⟨5, true⟩).Register ⟨"db", .ok, .ok⟩).1.Register
        ⟨"db", .ok, .err "down"⟩).1.checkers "db" = some ⟨"db", .ok, .err "down"⟩ ∧
    ((((HManager.mk [] ⟨5, true⟩).Register ⟨"db", .ok, .ok⟩).1.Register
        ⟨"db", .ok, .err "down"⟩).1.checkers.countP (fun e => e.1 == "db")) = 1 ∧
    ((HManager.mk [] ⟨5, true⟩).Register ⟨"db", .ok, .ok⟩).2 = none ∧
    (((HManager.mk [] ⟨5, true⟩).Register ⟨"db", .ok, .ok⟩).1.Register
        ⟨"db", .ok, .err "down"⟩).2 = none :=
  register_same_name_overwrites (HManager.mk [] ⟨5, true⟩) ⟨"db", .ok, .ok⟩
    ⟨"db", .ok, .err "down"⟩ rfl (by simp)

/-! ## C5: fatal vs non-fatal failures during `database.New` -/

/-- C5: during construction, a master connection failure or a failure of
the final `SELECT 1` verification is fatal (`New` returns an error and no
instance), while individual slave connection failures are not: the
construction succeeds and the active slave list consists of exactly the
slaves that connected, in configuration order, each omitted slave simply
missing. -/
theorem new_fatal_master_nonfatal_slaves (cfg : DatabaseConfig) (env : Env)
    (hm : Option HManager) :
    (∀ e, connect cfg cfg.master env 0 = .error e →
        (New cfg env hm).1 = .error ("failed to connect to master database: " ++ e)) ∧
    (∀ master, connect cfg cfg.master env 0 = .ok master →
        env.sqlDBOk master = true → env.execOk master = false →
        (New cfg env hm).1 = .error "failed to verify database connection") ∧
    (∀ master, connect cfg cfg.master env 0 = .ok master →
        env.sqlDBOk master = true → env.execOk master = true →
        (New cfg env hm).1 = .ok ⟨cfg.name, cfg, master,
          cfg.slaves.enum.filterMap (fun p => (connect cfg p.2 env (p.1 + 1)).toOption),
          0⟩) := by
  refine ⟨?_, ?_, ?_⟩
  · intro e he
    simp [New, he]
  · intro master hmas h1 h2
    simp [New, hmas, h1, h2]
  · intro master hmas h1 h2
    simp [New, connectSlaves, hmas, h1, h2]

/-- Witness for C5: a config with one reachable and one unreachable slave
constructs successfully, with only the reachable slave active. -/
theorem new_fatal_master_nonfatal_slaves_witness :
    (New (sampleConfig "main" "m" ["s1", "bad"]) sampleEnv none).1 =
      .ok ⟨"main", sampleConfig "main" "m" ["s1", "bad"], samplePool 0 "m",
        (sampleConfig "main" "m" ["s1", "bad"]).slaves.enum.filterMap
          (fun p => (connect (sampleConfig "main" "m" ["s1", "bad"]) p.2 sampleEnv
            (p.1 + 1)).toOption), 0⟩ :=
  (new_fatal_master_nonfatal_slaves (sampleConfig "main" "m" ["s1", "bad"])
    sampleEnv none).2.2 (samplePool 0 "m") rfl rfl rfl

/-- The witness instance's active slave list is exactly the reachable
slave `"s1"` (pool id 1); the unreachable `"bad"` slave is omitted. -/
theorem new_nonfatal_slaves_active_list :
    (sampleConfig "main" "m" ["s1", "bad"]).slaves.enum.filterMap
        (fun p => (connect (sampleConfig "main" "m" ["s1", "bad"]) p.2 sampleEnv
          (p.1 + 1)).toOption) = [samplePool 1 "s1"] := by
  decide

/-! ## Construction-loop helper lemmas -/

/-- The success/failure of `database.New` does not depend on the health
manager it was handed: registration happens only on the success path. -/
theorem new_fst_hm_independent (cfg : DatabaseConfig) (env : Env)
    (h h2 : Option HManager) : (New cfg env h).1 = (New cfg env h2).1 := by
  unfold New
  cases connect cfg cfg.master env 0 with
  | error e => rfl
  | ok master =>
    by_cases h1 : env.sqlDBOk master <;> by_cases hx : env.execOk master <;>
      simp [h1, hx]

/-- When `New` fails, the health manager is returned unchanged. -/
theorem new_error_preserves_hm (cfg : DatabaseConfig) (env : Env)
    (hm : Option HManager) (e : String) (h : (New cfg env hm).1 = .error e) :
    (New cfg env hm).2 = hm := by
  unfold New at h ⊢
  rcases hc : connect cfg cfg.master env 0 with e2 | master
  · rfl
  · by_cases h1 : env.sqlDBOk master <;> by_cases hx : env.execOk master <;>
      simp_all

/-- When `New` succeeds with a health manager present, the returned
manager is the input one with the instance's checker registered, and that
checker is keyed by the configured instance name. -/
theorem new_ok_registers (cfg : DatabaseConfig) (env : Env) (h : HManager)
    (db : Database) (hok : (New cfg env (some h)).1 = .ok db) :
    ∃ c : Checker, c.name = cfg.name ∧
      (New cfg env (some h)).2 = some (h.Register c).1 := by
  unfold New at hok ⊢
  rcases hc : connect cfg cfg.master env 0 with e2 | master
  · rw [hc] at hok
    simp at hok
  · rw [hc] at hok
    by_cases h1 : env.sqlDBOk master
    · by_cases hx : env.execOk master
      · exact ⟨dbHealthChecker cfg.name master env, rfl, by simp [h1, hx]⟩
      · exfalso
        simp [h1, hx] at hok
    · exfalso
      simp [h1] at hok

/-- The first construction failure aborts `NewManager`'s loop with an
error naming the offending instance, whatever the accumulated registry. -/
theorem loop_first_failure (env : Env) (bad : DatabaseConfig)
    (post : List DatabaseConfig) (e : String)
    (hbad : (New bad env none).1 = .error e) :
    ∀ (pre : List DatabaseConfig) (hm : Option HManager)
      (acc : List (String × Database)),
      (∀ p ∈ pre, ∃ db, (New p env none).1 = .ok db) →
      (newManagerLoop env (pre ++ bad :: post) hm acc).1 =
        .error ("failed to initialize database " ++ bad.name ++ ": " ++ e) := by
  intro pre
  induction pre with
  | nil =>
    intro hm acc _
    have h1 : (New bad env hm).1 = .error e :=
      (new_fst_hm_independent bad env hm none).trans hbad
    simp only [List.nil_append, newManagerLoop]
    rcases hN : New bad env hm with ⟨fst, snd⟩
    rw [hN] at h1
    simp only at h1
    subst h1
    rfl
  | cons p rest ih =>
    intro hm acc hpre
    obtain ⟨db, hdb⟩ := hpre p (by simp)
    have h1 : (New p env hm).1 = .ok db :=
      (new_fst_hm_independent p env hm none).trans hdb
    simp only [List.cons_append, newManagerLoop]
    rcases hN : New p env hm with ⟨fst, snd⟩
    rw [hN] at h1
    simp only at h1
    subst h1
    exact ih snd (mapInsert acc p.name db) (fun q hq => hpre q (by simp [hq]))

/-! ## C4: registry construction is all-or-nothing -/

/-- C4: `NewManager` constructs instances in config-list order; if some
config fails to construct then — with `bad` the first failing entry —
the whole operation returns an error identifying `bad`'s name (wrapping
`New`'s error), and no `Manager` value is returned, so no instance from
the config list is retrievable through `Get` afterwards. -/
theorem newmanager_all_or_nothing (pre : List DatabaseConfig)
    (bad : DatabaseConfig) (post : List DatabaseConfig) (env : Env)
    (hm : Option HManager) (e : String)
    (hpre : ∀ p ∈ pre, ∃ db, (New p env none).1 = .ok db)
    (hbad : (New bad env none).1 = .error e) :
    (NewManager (pre ++ bad :: post) env hm).1 =
      .error ("failed to initialize database " ++ bad.name ++ ": " ++ e) ∧
    ∀ mgr, (NewManager (pre ++ bad :: post) env hm).1 ≠ .ok mgr := by
  have h := loop_first_failure env bad post e hbad pre hm [] hpre
  refine ⟨h, fun mgr hc => ?_⟩
  unfold NewManager at hc
  rw [h] at hc
  cases hc

/-- Witness for C4: config list `[good, bad]` where `bad`'s master is
unreachable: construction fails naming `bad`. -/
theorem newmanager_all_or_nothing_witness :
    (NewManager [sampleConfig "main" "m" [], sampleConfig "aux" "bad" []]
        sampleEnv none).1 =
      .error ("failed to initialize database " ++ "aux" ++ ": " ++
        "failed to connect to master database: gorm open failed") ∧
    ∀ mgr, (NewManager [sampleConfig "main" "m" [], sampleConfig "aux" "bad" []]
        sampleEnv none).1 ≠ .ok mgr := by
  have h := newmanager_all_or_nothing [sampleConfig "main" "m" []]
    (sampleConfig "aux" "bad" []) [] sampleEnv none
    "failed to connect to master database: gorm open failed"
    (by intro p hp
        rw [List.mem_singleton] at hp
        subst hp
        exact ⟨_, rfl⟩)
    rfl
  simpa using h

/-! ## C3: overall status is `ok` iff every per-checker result is `ok` -/

/-- The deterministic content of one fan-out round when no task panics. -/
theorem runChecks_eq_some (entries : List (String × Checker))
    (probe : Checker → Outcome) (now : String)
    (hnp : ∀ e ∈ entries, probe e.2 ≠ .panicked) :
    runChecks entries probe now =
      some ⟨if entries.any (fun e => (probe e.2).isErr) then "error" else "ok",
            now, entries.map (fun e => (e.1, mkResult (probe e.2)))⟩ := by
  have hcond : ¬ (entries.any (fun e => probe e.2 == .panicked) = true) := by
    simpa using hnp
  unfold runChecks
  rw [if_neg hcond]

/-- Status/result correspondence for one non-panicking fan-out round. -/
theorem runChecks_status_iff (entries : List (String × Checker))
    (probe : Checker → Outcome) (now : String) (st : HealthStatus)
    (hnp : ∀ e ∈ entries, probe e.2 ≠ .panicked)
    (h : runChecks entries probe now = some st) :
    st.status = "ok" ↔ ∀ p ∈ st.checks, p.2.status = "ok" := by
  rw [runChecks_eq_some entries probe now hnp] at h
  obtain rfl := ((Option.some.injEq _ _).mp h).symm
  by_cases he : entries.any (fun e => (probe e.2).isErr)
  · simp only [he, if_true]
    obtain ⟨e, hmem, herr⟩ := List.any_eq_true.mp he
    refine ⟨fun h0 => absurd h0 (by decide), fun hall => ?_⟩
    exfalso
    have hthis := hall (e.1, mkResult (probe e.2)) (List.mem_map_of_mem _ hmem)
    cases hco : probe e.2 with
    | ok => rw [hco] at herr; exact absurd herr (by decide)
    | err m =>
      rw [hco] at hthis
      simp [mkResult] at hthis
    | panicked => exact absurd hco (hnp e hmem)
  · simp only [he, if_false]
    have hall2 : ∀ e ∈ entries, ¬ ((probe e.2).isErr = true) := by
      simpa using he
    refine ⟨fun _ p hp => ?_, fun _ => rfl⟩
    obtain ⟨e, hmem, rfl⟩ := List.mem_map.mp hp
    have h2 := hall2 e hmem
    cases hco : probe e.2 with
    | ok => simp [mkResult]
    | err m =>
      rw [hco] at h2
      exact absurd rfl h2
    | panicked => exact absurd hco (hnp e hmem)

/-- Result counts of one non-panicking fan-out round. -/
theorem runChecks_counts (entries : List (String × Checker))
    (probe : Checker → Outcome) (now : String) (st : HealthStatus)
    (hnp : ∀ e ∈ entries, probe e.2 ≠ .panicked)
    (h : runChecks entries probe now = some st) :
    st.checks.countP (fun p => p.2.status == "error") =
      entries.countP (fun e => (probe e.2).isErr) ∧
    st.checks.countP (fun p => p.2.status == "ok") =
      entries.countP (fun e => !(probe e.2).isErr) := by
  rw [runChecks_eq_some _ _ _ hnp] at h
  obtain rfl := ((Option.some.injEq _ _).mp h).symm
  constructor
  · rw [List.countP_map]
    apply List.countP_congr
    intro e hmem
    cases hco : probe e.2 with
    | ok => simp [hco, mkResult, Outcome.isErr, Function.comp]
    | err m => simp [hco, mkResult, Outcome.isErr, Function.comp]
    | panicked => exact absurd hco (hnp e hmem)
  · rw [List.countP_map]
    apply List.countP_congr
    intro e hmem
    cases hco : probe e.2 with
    | ok => simp [hco, mkResult, Outcome.isErr, Function.comp]
    | err m => simp [hco, mkResult, Outcome.isErr, Function.comp]
    | panicked => exact absurd hco (hnp e hmem)

/-- A panicking entry makes the fan-out abort (no status returned), so a
returned status implies no registered probe panicked. -/
theorem runChecks_no_panic (entries : List (String × Checker))
    (probe : Checker → Outcome) (now : String) (st : HealthStatus)
    (h : runChecks entries probe now = some st) :
    ∀ e ∈ entries, probe e.2 ≠ .panicked := by
  intro e hmem hcon
  unfold runChecks at h
  rw [if_pos (List.any_eq_true.mpr ⟨e, hmem, by simp [hcon]⟩)] at h
  cases h

/-! ### C3: overall status `ok` iff every result `ok` -/

/-- C3: the `HealthStatus` returned by `Manager.Check` (and `Manager.Ping`)
has overall status `"ok"` iff every per-checker result has status `"ok"`;
in particular with three registered checkers of which exactly one's
`Check` returns an error, the status is `"error"` with exactly one
`"error"` result and two `"ok"` results. -/
theorem health_status_ok_iff_all_ok (entries : List (String × Checker))
    (cfg : HealthConfig) (now : String) :
    (∀ st, HManager.Check ⟨entries, cfg⟩ now = some st →
        ((st.status = "ok" ↔ ∀ p ∈ st.checks, p.2.status = "ok") ∧
         (entries.length = 3 →
            entries.countP (fun e => (e.2.check).isErr) = 1 →
            st.status = "error" ∧
            st.checks.countP (fun p => p.2.status == "error") = 1 ∧
            st.checks.countP (fun p => p.2.status == "ok") = 2))) ∧
    (∀ st, HManager.Ping ⟨entries, cfg⟩ now = some st →
        (st.status = "ok" ↔ ∀ p ∈ st.checks, p.2.status = "ok")) := by
  constructor
  · intro st h
    unfold HManager.Check at h
    by_cases hz : entries.length = 0
    · rw [if_pos hz] at h
      obtain rfl := ((Option.some.injEq _ _).mp h).symm
      refine ⟨⟨fun _ p hp => absurd hp (List.not_mem_nil p), fun _ => rfl⟩, ?_⟩
      intro hlen
      exact absurd (hz.symm.trans hlen) (by decide)
    · rw [if_neg hz] at h
      have hnp := runChecks_no_panic entries _ now st h
      refine ⟨runChecks_status_iff entries _ now st hnp h, ?_⟩
      intro hlen hcnt
      obtain ⟨hcErr, hcOk⟩ := runChecks_counts entries _ now st hnp h
      refine ⟨?_, by rw [hcErr]; exact hcnt, ?_⟩
      · rw [runChecks_eq_some _ _ _ hnp] at h
        obtain rfl := ((Option.some.injEq _ _).mp h).symm
        have hany : entries.any (fun e => (e.2.check).isErr) = true := by
          rw [List.any_eq_true]
          exact List.countP_pos_iff.mp (by omega)
        simp [hany]
      · rw [hcOk]
        have hsplit := List.length_eq_countP_add_countP
          (p := fun e => ((e.2 : Checker).check).isErr) (l := entries)
        have hcongr : entries.countP (fun e => !(e.2.check).isErr) =
            entries.countP (fun e => ¬((e.2.check).isErr = true)) :=
          List.countP_congr (by intro x hx; simp)
        rw [hcongr]
        omega
  · intro st h
    unfold HManager.Ping at h
    by_cases hz : entries.length = 0
    · rw [if_pos hz] at h
      obtain rfl := ((Option.some.injEq _ _).mp h).symm
      exact ⟨fun _ p hp => absurd hp (List.not_mem_nil p), fun _ => rfl⟩
    · rw [if_neg hz] at h
      exact runChecks_status_iff entries _ now st
        (runChecks_no_panic entries _ now st h) h

/-- Witness for C3 at three concrete checkers with exactly one failing. -/
theorem health_status_ok_iff_all_ok_witness :
    (HealthStatus.mk "error" "t"
        [("db", ⟨"ok", ""⟩), ("redis", ⟨"error", "down"⟩), ("mq", ⟨"ok", ""⟩)]).status
        = "error" ∧
    ((HealthStatus.mk "error" "t"
        [("db", ⟨"ok", ""⟩), ("redis", ⟨"error", "down"⟩), ("mq", ⟨"ok", ""⟩)]).checks.countP
        (fun p => p.2.status == "error")) = 1 ∧
    ((HealthStatus.mk "error" "t"
        [("db", ⟨"ok", ""⟩), ("redis", ⟨"error", "down"⟩), ("mq", ⟨"ok", ""⟩)]).checks.countP
        (fun p => p.2.status == "ok")) = 2 :=
  ((health_status_ok_iff_all_ok
      [("db", ⟨"db", .ok, .ok⟩), ("redis", ⟨"redis", .ok, .err "down"⟩),
       ("mq", ⟨"mq", .ok, .ok⟩)] ⟨5, true⟩ "t").1
    (HealthStatus.mk "error" "t"
      [("db", ⟨"ok", ""⟩), ("redis", ⟨"error", "down"⟩), ("mq", ⟨"ok", ""⟩)])
    (by decide)).2 (by decide) (by decide)

/-! ### C9: the checks map has exactly the registered names as keys -/

/-- The keys of one fan-out round's result map are the registry's keys. -/
theorem runChecks_keys (entries : List (String × Checker))
    (probe : Checker → Outcome) (now : String) (st : HealthStatus)
    (h : runChecks entries probe now = some st) :
    st.checks.map Prod.fst = entries.map Prod.fst := by
  unfold runChecks at h
  by_cases hp : entries.any (fun e => probe e.2 == .panicked)
  · rw [if_pos hp] at h
    cases h
  · rw [if_neg hp] at h
    obtain rfl := ((Option.some.injEq _ _).mp h).symm
    simp [List.map_map]

/-- C9: after every completed `Ping` or `Check` call, the returned checks
map has exactly the registered checker names as its key list — one entry
per registered checker, however many checkers fail. -/
theorem completed_check_keys_match_registry (entries : List (String × Checker))
    (cfg : HealthConfig) (now : String) :
    (∀ st, HManager.Check ⟨entries, cfg⟩ now = some st →
        st.checks.map Prod.fst = entries.map Prod.fst) ∧
    (∀ st, HManager.Ping ⟨entries, cfg⟩ now = some st →
        st.checks.map Prod.fst = entries.map Prod.fst) := by
  constructor <;>
    · intro st h
      first
        | unfold HManager.Check at h
        | unfold HManager.Ping at h
      by_cases hz : entries.length = 0
      · rw [if_pos hz] at h
        obtain rfl := ((Option.some.injEq _ _).mp h).symm
        rw [List.length_eq_zero.mp hz]
        rfl
      · rw [if_neg hz] at h
        exact runChecks_keys entries _ now st h

/-- Witness for C9 at two concrete checkers, one of which fails. -/
theorem completed_check_keys_match_registry_witness :
    (HealthStatus.mk "error" "t"
        [("db", ⟨"ok", ""⟩), ("cache", ⟨"error", "gone"⟩)]).checks.map Prod.fst =
      ([("db", (⟨"db", .ok, .ok⟩ : Checker)),
        ("cache", ⟨"cache", .ok, .err "gone"⟩)]).map Prod.fst :=
  (completed_check_keys_match_registry
      [("db", ⟨"db", .ok, .ok⟩), ("cache", ⟨"cache", .ok, .err "gone"⟩)]
      ⟨5, true⟩ "t").1
    (HealthStatus.mk "error" "t" [("db", ⟨"ok", ""⟩), ("cache", ⟨"error", "gone"⟩)])
    (by decide)

/-! ### C7: task isolation — errors are isolated, panics are not -/

/-- C7 counterexample: the fan-out goroutines contain no `recover`, so a
panic in one checker's `Check` crashes the whole process: the aggregation
call does not complete and the other (healthy) checker's result is never
recorded — whereas with the panicking checker absent the call completes
and records the healthy checker's result. -/
theorem panic_aborts_check_fanout :
    HManager.Check
        ⟨[("db", ⟨"db", .ok, .panicked⟩), ("redis", ⟨"redis", .ok, .ok⟩)],
         ⟨5, true⟩⟩ "t" = none ∧
    HManager.Check ⟨[("redis", ⟨"redis", .ok, .ok⟩)], ⟨5, true⟩⟩ "t" =
      some ⟨"ok", "t", [("redis", ⟨"ok", ""⟩)]⟩ := by
  exact ⟨rfl, rfl⟩

/-- A per-name result lookup in an (optional) aggregation result. -/
def resLookup (r : Option HealthStatus) (n : String) : Option CheckResult :=
  r.bind (fun st => mapLookup st.checks n)

theorem mapLookup_map_filter_ne {α : Type} (g : String × α → CheckResult)
    (l : List (String × α)) (n key : String) (hn : n ≠ key) :
    mapLookup (l.map (fun e => (e.1, g e))) n =
      mapLookup ((l.filter (fun e => !(e.1 == key))).map (fun e => (e.1, g e))) n := by
  induction l with
  | nil => rfl
  | cons hd tl ih =>
    rw [List.map_cons, List.filter_cons]
    by_cases hhd : hd.1 = key
    · simp [mapLookup, hhd, Ne.symm hn, ih]
    · by_cases hn2 : hd.1 = n <;> simp [mapLookup, hhd, hn2, hn, ih]

/-- C7 amended: in a fan-out round in which no checker panics, one
checker's error neither aborts the aggregation (both `Check` and `Ping`
complete) nor affects any other checker's recorded result: for every
other name, the recorded result equals the one obtained with the
offending checker absent from the registry. -/
theorem error_isolation_without_panic (entries : List (String × Checker))
    (cfg : HealthConfig) (now : String) (x : String × Checker)
    (hnp : ∀ e ∈ entries, e.2.check ≠ .panicked ∧ e.2.ping ≠ .panicked)
    (hx : x ∈ entries) :
    ((HManager.Check ⟨entries, cfg⟩ now).isSome = true ∧
     (HManager.Ping ⟨entries, cfg⟩ now).isSome = true) ∧
    ∀ n, n ≠ x.1 →
      resLookup (HManager.Check ⟨entries, cfg⟩ now) n =
        resLookup
          (HManager.Check ⟨entries.filter (fun e => !(e.1 == x.1)), cfg⟩ now) n ∧
      resLookup (HManager.Ping ⟨entries, cfg⟩ now) n =
        resLookup
          (HManager.Ping ⟨entries.filter (fun e => !(e.1 == x.1)), cfg⟩ now) n := by
  have hnpC : ∀ e ∈ entries, (fun c => c.check) e.2 ≠ Outcome.panicked :=
    fun e he => (hnp e he).1
  have hnpP : ∀ e ∈ entries, (fun c => c.ping) e.2 ≠ Outcome.panicked :=
    fun e he => (hnp e he).2
  have hnpCF : ∀ e ∈ entries.filter (fun e => !(e.1 == x.1)),
      (fun c => c.check) e.2 ≠ Outcome.panicked :=
    fun e he => hnpC e (List.mem_of_mem_filter he)
  have hnpPF : ∀ e ∈ entries.filter (fun e => !(e.1 == x.1)),
      (fun c => c.ping) e.2 ≠ Outcome.panicked :=
    fun e he => hnpP e (List.mem_of_mem_filter he)
  refine ⟨⟨?_, ?_⟩, ?_⟩
  · unfold HManager.Check
    by_cases hz : entries.length = 0
    · simp [hz]
    · rw [if_neg hz, runChecks_eq_some _ _ _ hnpC]
      rfl
  · unfold HManager.Ping
    by_cases hz : entries.length = 0
    · simp [hz]
    · rw [if_neg hz, runChecks_eq_some _ _ _ hnpP]
      rfl
  · intro n hn
    constructor
    · unfold resLookup HManager.Check
      by_cases hz : entries.length = 0
      · rw [List.length_eq_zero.mp hz]
        rfl
      · rw [if_neg hz, runChecks_eq_some _ _ _ hnpC]
        by_cases hzF : (entries.filter (fun e => !(e.1 == x.1))).length = 0
        · rw [if_pos hzF]
          have hfe := mapLookup_map_filter_ne
            (fun e => mkResult e.2.check) entries n x.1 hn
          rw [List.length_eq_zero.mp hzF] at hfe
          simpa [mapLookup] using hfe
        · rw [if_neg hzF, runChecks_eq_some _ _ _ hnpCF]
          exact mapLookup_map_filter_ne (fun e => mkResult e.2.check) entries n x.1 hn
    · unfold resLookup HManager.Ping
      by_cases hz : entries.length = 0
      · rw [List.length_eq_zero.mp hz]
        rfl
      · rw [if_neg hz, runChecks_eq_some _ _ _ hnpP]
        by_cases hzF : (entries.filter (fun e => !(e.1 == x.1))).length = 0
        · rw [if_pos hzF]
          have hfe := mapLookup_map_filter_ne
            (fun e => mkResult e.2.ping) entries n x.1 hn
          rw [List.length_eq_zero.mp hzF] at hfe
          simpa [mapLookup] using hfe
        · rw [if_neg hzF, runChecks_eq_some _ _ _ hnpPF]
          exact mapLookup_map_filter_ne (fun e => mkResult e.2.ping) entries n x.1 hn

/-- Witness for the amended C7: with checkers `a` (erroring) and `b`
(healthy), `b`'s recorded result is the same with and without `a`. -/
theorem error_isolation_without_panic_witness :
    resLookup (HManager.Check
        ⟨[("a", ⟨"a", .err "pdown", .err "down"⟩), ("b", ⟨"b", .ok, .ok⟩)],
         ⟨5, true⟩⟩ "t") "b" =
      resLookup (HManager.Check
        ⟨([("a", (⟨"a", .err "pdown", .err "down"⟩ : Checker)),
           ("b", ⟨"b", .ok, .ok⟩)].filter
            (fun e => !(e.1 == "a"))), ⟨5, true⟩⟩ "t") "b" ∧
    resLookup (HManager.Ping
        ⟨[("a", ⟨"a", .err "pdown", .err "down"⟩), ("b", ⟨"b", .ok, .ok⟩)],
         ⟨5, true⟩⟩ "t") "b" =
      resLookup (HManager.Ping
        ⟨([("a", (⟨"a", .err "pdown", .err "down"⟩ : Checker)),
           ("b", ⟨"b", .ok, .ok⟩)].filter
            (fun e => !(e.1 == "a"))), ⟨5, true⟩⟩ "t") "b" :=
  (error_isolation_without_panic
      [("a", ⟨"a", .err "pdown", .err "down"⟩), ("b", ⟨"b", .ok, .ok⟩)]
      ⟨5, true⟩ "t" ("a", ⟨"a", .err "pdown", .err "down"⟩)
      (by decide) (by simp)).2 "b" (by decide)

/-! ### C10: health registrations survive a failed registry construction -/

theorem isSome_mapLookup_mapInsert_self {α : Type} (l : List (String × α))
    (k : String) (v : α) : (mapLookup (mapInsert l k v) k).isSome = true := by
  rw [mapLookup_mapInsert_self]
  rfl

theorem isSome_mapLookup_mapInsert_mono {α : Type} (l : List (String × α))
    (k k2 : String) (v : α) (h : (mapLookup l k2).isSome = true) :
    (mapLookup (mapInsert l k v) k2).isSome = true := by
  by_cases hk : k2 = k
  · subst hk
    exact isSome_mapLookup_mapInsert_self l k2 v
  · rw [mapLookup_mapInsert_ne l k k2 v hk]
    exact h

/-- Through the construction loop, a failing entry aborts but the health
manager keeps every registration made for the successfully constructed
instances before it (and everything registered earlier). -/
theorem loop_keeps_registrations (env : Env) (bad : DatabaseConfig)
    (post : List DatabaseConfig) (e : String)
    (hbad : (New bad env none).1 = .error e) :
    ∀ (pre : List DatabaseConfig) (h : HManager)
      (acc : List (String × Database)),
      (∀ p ∈ pre, ∃ db, (New p env none).1 = .ok db) →
      ∃ h2, (newManagerLoop env (pre ++ bad :: post) (some h) acc).2 = some h2 ∧
        (∀ k, (mapLookup h.checkers k).isSome = true →
              (mapLookup h2.checkers k).isSome = true) ∧
        (∀ p ∈ pre, (mapLookup h2.checkers p.name).isSome = true) := by
  intro pre
  induction pre with
  | nil =>
    intro h acc _
    have h1 : (New bad env (some h)).1 = .error e :=
      (new_fst_hm_independent bad env (some h) none).trans hbad
    have h2 : (New bad env (some h)).2 = some h :=
      new_error_preserves_hm bad env (some h) e h1
    refine ⟨h, ?_, fun k hk => hk, fun p hp => absurd hp (List.not_mem_nil p)⟩
    simp only [List.nil_append, newManagerLoop]
    rcases hN : New bad env (some h) with ⟨fst, snd⟩
    rw [hN] at h1 h2
    simp only at h1 h2
    subst h1
    subst h2
    rfl
  | cons p rest ih =>
    intro h acc hpre
    obtain ⟨db, hdb⟩ := hpre p (by simp)
    have h1 : (New p env (some h)).1 = .ok db :=
      (new_fst_hm_independent p env (some h) none).trans hdb
    obtain ⟨c, hcname, hreg⟩ := new_ok_registers p env h db h1
    simp only [List.cons_append, newManagerLoop]
    rcases hN : New p env (some h) with ⟨fst, snd⟩
    rw [hN] at h1 hreg
    simp only at h1 hreg
    subst h1
    subst hreg
    obtain ⟨h2, hh2, hmono, hnames⟩ :=
      ih (h.Register c).1 (mapInsert acc p.name db)
        (fun q hq => hpre q (by simp [hq]))
    refine ⟨h2, hh2, ?_, ?_⟩
    · intro k hk
      apply hmono
      simp only [HManager.Register]
      exact isSome_mapLookup_mapInsert_mono h.checkers c.name k c hk
    · intro q hq
      rcases List.mem_cons.mp hq with rfl | hq2
      · apply hmono
        simp only [HManager.Register]
        rw [← hcname]
        exact isSome_mapLookup_mapInsert_self h.checkers c.name c
      · exact hnames q hq2

/-- C10: if `NewManager` fails on a later config entry, the health
checkers registered by the earlier successfully constructed instances
remain registered in the health manager even though the registry itself
is never returned. -/
theorem failed_registry_keeps_registrations (pre : List DatabaseConfig)
    (bad : DatabaseConfig) (post : List DatabaseConfig) (env : Env)
    (hm0 : HManager) (e : String)
    (hpre : ∀ p ∈ pre, ∃ db, (New p env none).1 = .ok db)
    (hbad : (New bad env none).1 = .error e) :
    ∃ hm2, (NewManager (pre ++ bad :: post) env (some hm0)).2 = some hm2 ∧
      (∀ mgr, (NewManager (pre ++ bad :: post) env (some hm0)).1 ≠ .ok mgr) ∧
      ∀ p ∈ pre, (mapLookup hm2.checkers p.name).isSome = true := by
  obtain ⟨hm2, hs, _, hnames⟩ :=
    loop_keeps_registrations env bad post e hbad pre hm0 [] hpre
  refine ⟨hm2, hs, ?_, hnames⟩
  intro mgr hc
  unfold NewManager at hc
  rw [loop_first_failure env bad post e hbad pre (some hm0) [] hpre] at hc
  cases hc

/-- Witness for C10: `[good, bad]` config list, starting from an empty
health manager: construction fails, yet `"main"`'s checker stays
registered. -/
theorem failed_registry_keeps_registrations_witness :
    ((NewManager [sampleConfig "main" "m" [], sampleConfig "aux" "bad" []]
        sampleEnv (some ⟨[], ⟨5, true⟩⟩)).2.elim false
      (fun h => (mapLookup h.checkers "main").isSome)) = true := by
  obtain ⟨hm2, hEq, _, hnames⟩ :=
    failed_registry_keeps_registrations [sampleConfig "main" "m" []]
      (sampleConfig "aux" "bad" []) [] sampleEnv ⟨[], ⟨5, true⟩⟩
      "failed to connect to master database: gorm open failed"
      (by intro p hp
          rw [List.mem_singleton] at hp
          subst hp
          exact ⟨_, rfl⟩)
      rfl
  rw [List.singleton_append] at hEq
  rw [hEq]
  simpa using hnames (sampleConfig "main" "m" []) (by simp)

/-! ## C1: round-robin slave selection -/

/-- The handles produced by `m` successive sequential `Slave` calls by a
single caller, threading the instance's counter state. -/
def slaveCalls (ctx : Ctx) : Nat → Database → List Handle
  | 0, _ => []
  | m + 1, d => (d.Slave ctx).1 :: slaveCalls ctx m (d.Slave ctx).2

/-- C1 as stated: issuing `Slave` exactly `k·N` times sequentially from
the construction counter state yields a handle backed by each slave pool
exactly `k` times, and the slaves are visited in cyclic (round-robin)
order: a call served by slave `j` is followed by one served by slave
`(j+1) % N`. -/
def C1Claim (d : Database) (ctx : Ctx) (k : Nat) : Prop :=
  (∀ j, j < d.slaves.length →
      (slaveCalls ctx (k * d.slaves.length) d).count
        ⟨d.slaves.getD j d.master, ctx⟩ = k) ∧
  (∀ i j, i + 1 < (slaveCalls ctx (k * d.slaves.length) d).length →
      j < d.slaves.length →
      (slaveCalls ctx (k * d.slaves.length) d).getD i ⟨d.master, ctx⟩ =
        ⟨d.slaves.getD j d.master, ctx⟩ →
      (slaveCalls ctx (k * d.slaves.length) d).getD (i + 1) ⟨d.master, ctx⟩ =
        ⟨d.slaves.getD ((j + 1) % d.slaves.length) d.master, ctx⟩)

/-- Closed form of the call trace: the `i`-th call (1-indexed) is served
by slave `((s + i) mod 2^32) mod N`, where `s` is the counter's starting
value — the `atomic.Uint32` counter wraps at `2^32`. -/
theorem slaveCalls_eq (name : String) (cfg : DatabaseConfig) (master : GormDB)
    (slaves : List GormDB) (hne : slaves ≠ []) (ctx : Ctx) :
    ∀ (m s : Nat),
      slaveCalls ctx m ⟨name, cfg, master, slaves, s⟩ =
        (List.range' 1 m).map
          (fun i => ⟨slaves.getD (((s + i) % 4294967296) % slaves.length) master,
            ctx⟩) := by
  have hlen : ¬ (slaves.length = 0) := by
    simpa using hne
  intro m
  induction m with
  | zero => intro s; rfl
  | succ m ih =>
    intro s
    have hidx : ((s + 1) % 4294967296) % slaves.length < slaves.length :=
      Nat.mod_lt _ (Nat.pos_of_ne_zero hlen)
    simp only [slaveCalls, Database.Slave, dif_neg hlen]
    rw [ih ((s + 1) % 4294967296)]
    rw [List.range'_succ, List.map_cons]
    congr 1
    · rw [show slaves.get ⟨((s + 1) % 4294967296) % slaves.length, hidx⟩ =
          slaves.getD (((s + 1) % 4294967296) % slaves.length) master from
        (List.getD_eq_getElem slaves master hidx).symm]
    · rw [List.range'_eq_map_range 2 m, List.range'_eq_map_range 1 m,
        List.map_map, List.map_map]
      apply List.map_congr_left
      intro t _
      simp only [Function.comp]
      congr 2
      rw [Nat.mod_add_mod]
      congr 1
      omega

/-- With the counter at its construction value and fewer than `2^32`
total calls, the `i`-th call is served by slave `i mod N`. -/
theorem slaveCalls_eq_no_wrap (name : String) (cfg : DatabaseConfig)
    (master : GormDB) (slaves : List GormDB) (hne : slaves ≠ []) (ctx : Ctx)
    (m : Nat) (hm : m < 4294967296) :
    slaveCalls ctx m ⟨name, cfg, master, slaves, 0⟩ =
      (List.range' 1 m).map
        (fun i => ⟨slaves.getD (i % slaves.length) master, ctx⟩) := by
  rw [slaveCalls_eq name cfg master slaves hne ctx m 0]
  apply List.map_congr_left
  intro i hi
  have hiR := List.mem_range'_1.mp hi
  have h2 : (0 + i) % 4294967296 = i := by
    rw [Nat.zero_add]
    exact Nat.mod_eq_of_lt (by omega)
  rw [h2]

/-- Shifting a length-`N` block by one does not change how often each
residue modulo `N` occurs in it. -/
theorem count_mod_block_succ (a N j : Nat) (hN : 0 < N) :
    ((List.range' (a + 1) N).map (· % N)).count j =
      ((List.range' a N).map (· % N)).count j := by
  obtain ⟨M, rfl⟩ : ∃ M, N = M + 1 := ⟨N - 1, by omega⟩
  rw [List.range'_1_concat (a + 1) M, show List.range' a (M + 1) =
      a :: List.range' (a + 1) M from List.range'_succ a M 1]
  rw [List.map_append, List.map_cons, List.count_append, List.count_cons]
  rw [show a + 1 + M = a + (M + 1) from by omega, Nat.add_mod_right]
  simp only [List.map_cons, List.map_nil, List.count_cons, List.count_nil]
  omega

/-- Each residue `j < N` occurs exactly once among `N` consecutive
integers. -/
theorem count_mod_block (a N j : Nat) (hj : j < N) :
    ((List.range' a N).map (· % N)).count j = 1 := by
  induction a with
  | zero =>
    rw [← List.range_eq_range']
    rw [List.map_congr_left (fun x hx => Nat.mod_eq_of_lt (List.mem_range.mp hx))]
    rw [List.map_id']
    exact List.count_eq_one_of_mem (List.nodup_range N) (List.mem_range.mpr hj)
  | succ a ih =>
    rw [count_mod_block_succ a N j (by omega)]
    exact ih

/-- Each residue `j < N` occurs exactly `k` times among the residues of
`1, …, k·N`. -/
theorem count_mod_range' (k N j : Nat) (hj : j < N) :
    ((List.range' 1 (k * N)).map (· % N)).count j = k := by
  induction k with
  | zero => simp
  | succ k ih =>
    rw [show (k + 1) * N = N + k * N from by ring,
      ← List.range'_append_1 1 (k * N) N]
    rw [List.map_append, List.count_append, ih, count_mod_block (1 + k * N) N j hj]

theorem getD_inj_of_nodup (l : List GormDB) (dflt : GormDB) (hnd : l.Nodup)
    (i j : Nat) (hi : i < l.length) (hj : j < l.length) :
    l.getD i dflt = l.getD j dflt ↔ i = j := by
  rw [List.getD_eq_getElem l dflt hi, List.getD_eq_getElem l dflt hj]
  exact hnd.getElem_inj_iff

/-- C1 amended: the round-robin property holds as claimed whenever the
total number of calls `k·N` stays below `2^32`, i.e. the `atomic.Uint32`
counter does not wrap (slave pools are distinct objects, as construction
makes them). -/
theorem slave_round_robin_no_wrap (d : Database) (ctx : Ctx) (k : Nat)
    (h0 : d.slaveIndex = 0) (hN : 0 < d.slaves.length) (hk : 1 ≤ k)
    (hw : k * d.slaves.length < 4294967296) (hnd : d.slaves.Nodup) :
    C1Claim d ctx k := by
  have hne : d.slaves ≠ [] := by
    intro hc
    rw [hc] at hN
    simp at hN
  have hd : d = ⟨d.name, d.config, d.master, d.slaves, 0⟩ := by
    rw [← h0]
  have hbr : slaveCalls ctx (k * d.slaves.length) d =
      (List.range' 1 (k * d.slaves.length)).map
        (fun i => ⟨d.slaves.getD (i % d.slaves.length) d.master, ctx⟩) := by
    conv_lhs => rw [hd]
    exact slaveCalls_eq_no_wrap d.name d.config d.master d.slaves hne ctx _ hw
  constructor
  · intro j hj
    rw [hbr, List.count_eq_countP, List.countP_map]
    have h2 := count_mod_range' k d.slaves.length j hj
    rw [List.count_eq_countP, List.countP_map] at h2
    refine Eq.trans ?_ h2
    apply List.countP_congr
    intro i _
    have him : i % d.slaves.length < d.slaves.length := Nat.mod_lt _ hN
    simp only [Function.comp, beq_iff_eq]
    constructor
    · intro hh
      have hpool : d.slaves.getD (i % d.slaves.length) d.master =
          d.slaves.getD j d.master := congrArg Handle.pool hh
      exact (getD_inj_of_nodup d.slaves d.master hnd _ _ him hj).mp hpool
    · intro hh
      rw [hh]
  · intro i j hi1 hj heq
    rw [hbr] at hi1 heq ⊢
    rw [List.length_map, List.length_range'] at hi1
    rw [List.getD_eq_getElem _ _
      (by rw [List.length_map, List.length_range']; omega)] at heq
    rw [List.getD_eq_getElem _ _
      (by rw [List.length_map, List.length_range']; omega)]
    simp only [List.getElem_map, List.getElem_range', Nat.one_mul] at heq ⊢
    have him : (1 + i) % d.slaves.length < d.slaves.length := Nat.mod_lt _ hN
    have hpool : d.slaves.getD ((1 + i) % d.slaves.length) d.master =
        d.slaves.getD j d.master := by
      have := congrArg Handle.pool heq
      simpa using this
    have hij := (getD_inj_of_nodup d.slaves d.master hnd _ _ him hj).mp hpool
    have hidx : (1 + (i + 1)) % d.slaves.length = (j + 1) % d.slaves.length := by
      have h1 : (1 : Nat) + (i + 1) = (1 + i) + 1 := by omega
      rw [h1, ← hij, Nat.mod_add_mod]
    rw [hidx]

/-- Witness for the amended C1: two distinct slaves, `k = 2`, four calls:
each slave is hit twice, in cyclic order. -/
theorem slave_round_robin_no_wrap_witness :
    C1Claim ⟨"main", sampleConfig "main" "m" ["s1", "s2"], samplePool 0 "m",
      [samplePool 1 "s1", samplePool 2 "s2"], 0⟩ ⟨3⟩ 2 :=
  slave_round_robin_no_wrap
    ⟨"main", sampleConfig "main" "m" ["s1", "s2"], samplePool 0 "m",
      [samplePool 1 "s1", samplePool 2 "s2"], 0⟩ ⟨3⟩ 2
    rfl (by decide) (by decide) (by decide) (by decide)

/-- The slave pools of the wraparound counterexample instance. -/
def cexSlaves : List GormDB :=
  [samplePool 1 "s1", samplePool 2 "s2", samplePool 3 "s3"]

/-- A database instance with three active slaves and the counter at its
construction value. -/
def cexDb : Database :=
  ⟨"main", sampleConfig "main" "m" ["s1", "s2", "s3"], samplePool 0 "m",
    cexSlaves, 0⟩

/-- C1 counterexample: with `N = 3` slaves and `k = 1431655766`
(`k·N = 2^32 + 2`), the claim fails: the `atomic.Uint32` counter wraps at
call `2^32`, so calls `2^32 - 1` and `2^32` are both served by slave 0,
breaking the cyclic order. -/
theorem slave_round_robin_wraparound_cex :
    ¬ C1Claim cexDb ⟨0⟩ 1431655766 := by
  intro hC
  obtain ⟨-, hcyc⟩ := hC
  have h3 : cexDb.slaves.length = 3 := rfl
  have hmul : 1431655766 * cexDb.slaves.length = 4294967298 := by
    rw [h3]
  have hne : cexSlaves ≠ [] := by decide
  have hbr : slaveCalls ⟨0⟩ 4294967298 cexDb =
      (List.range' 1 4294967298).map
        (fun i => ⟨cexSlaves.getD (((0 + i) % 4294967296) % cexSlaves.length)
          (samplePool 0 "m"), ⟨0⟩⟩) :=
    slaveCalls_eq "main" (sampleConfig "main" "m" ["s1", "s2", "s3"])
      (samplePool 0 "m") cexSlaves hne ⟨0⟩ 4294967298 0
  have hget1 : (slaveCalls ⟨0⟩ (1431655766 * cexDb.slaves.length) cexDb).getD
      4294967294 ⟨cexDb.master, ⟨0⟩⟩ =
      ⟨cexSlaves.getD 0 (samplePool 0 "m"), ⟨0⟩⟩ := by
    rw [hmul, hbr]
    rw [List.getD_eq_getElem _ _
      (by rw [List.length_map, List.length_range']; norm_num)]
    simp only [List.getElem_map, List.getElem_range']
    norm_num
    decide
  have hget2 : (slaveCalls ⟨0⟩ (1431655766 * cexDb.slaves.length) cexDb).getD
      4294967295 ⟨cexDb.master, ⟨0⟩⟩ =
      ⟨cexSlaves.getD 0 (samplePool 0 "m"), ⟨0⟩⟩ := by
    rw [hmul, hbr]
    rw [List.getD_eq_getElem _ _
      (by rw [List.length_map, List.length_range']; norm_num)]
    simp only [List.getElem_map, List.getElem_range']
    norm_num
  have hlen : (slaveCalls ⟨0⟩ (1431655766 * cexDb.slaves.length) cexDb).length
      = 4294967298 := by
    rw [hmul, hbr]
    rw [List.length_map, List.length_range']
  have happ := hcyc 4294967294 0 (by rw [hlen]; norm_num) (by rw [h3]; norm_num)
    hget1
  rw [hget2] at happ
  exact absurd happ (by decide)

end AwesomeBE
